import Mathlib

/-!
# Secure-File-Statement-Delivery: verification of the identity and
# capability-token core

Shallow embedding of `src/Backend/main.py` (together with the request
validation declared in `src/Backend/schemas.py`): the capability-token
codec (`make_download_token` / `verify_download_token`), the selector
deriver (`create_selector`), and the register / login / download
endpoints.  Python strings are modelled as `List Char`, bytes as
`List Nat` (each `< 256`), machine-independent arbitrary-precision
integers as `Nat`/`Int`, and `int(time.time())` as an explicit `now : Nat`
parameter.  Fallible operations return `Option`/`Except`.
-/

namespace Backend

/-! ## Bytes and UTF-8 encoding (Python `str.encode()`) -/

/-- UTF-8 encoding of a single character, as byte values. -/
def utf8Char (c : Char) : List Nat :=
  let n := c.toNat
  if n < 128 then [n]
  else if n < 2048 then [192 ||| (n >>> 6), 128 ||| (n &&& 63)]
  else if n < 65536 then
    [224 ||| (n >>> 12), 128 ||| ((n >>> 6) &&& 63), 128 ||| (n &&& 63)]
  else
    [240 ||| (n >>> 18), 128 ||| ((n >>> 12) &&& 63),
     128 ||| ((n >>> 6) &&& 63), 128 ||| (n &&& 63)]

/-- Python `str.encode()` (UTF-8) on the `List Char` model of `str`. -/
def strEncode (s : List Char) : List Nat := s.flatMap utf8Char

/-! ## SHA-256 (the `hashlib.sha256` primitive used via `hmac.new`)

Words are `Nat` reduced modulo `2 ^ 32` wherever overflow matters. -/

/-- Truncation to a 32-bit word. -/
def w32 (n : Nat) : Nat := n % 4294967296

/-- Rotate the 32-bit word `x` right by `n` bit positions. -/
def rotr (n x : Nat) : Nat := w32 ((x >>> n) ||| (x <<< (32 - n)))

/-- SHA-256 `Ch` function. -/
def shaCh (x y z : Nat) : Nat := (x &&& y) ^^^ ((x ^^^ 4294967295) &&& z)

/-- SHA-256 `Maj` function (xor of the three pairwise conjunctions,
grouped to the right; xor is associative). -/
def shaMaj (x y z : Nat) : Nat := (x &&& y) ^^^ ((x &&& z) ^^^ (y &&& z))

/-- SHA-256 big sigma 0. -/
def bsig0 (x : Nat) : Nat := rotr 2 x ^^^ rotr 13 x ^^^ rotr 22 x

/-- SHA-256 big sigma 1. -/
def bsig1 (x : Nat) : Nat := rotr 6 x ^^^ rotr 11 x ^^^ rotr 25 x

/-- SHA-256 small sigma 0. -/
def ssig0 (x : Nat) : Nat := rotr 7 x ^^^ rotr 18 x ^^^ (x >>> 3)

/-- SHA-256 small sigma 1. -/
def ssig1 (x : Nat) : Nat := rotr 17 x ^^^ rotr 19 x ^^^ (x >>> 10)

/-- The 64 round constants of the compression function, here as decimal
`Nat` literals (the fractional parts of the cube roots of the first 64
primes, per the standard). -/
def shaK : List Nat :=
  [1116352408, 1899447441, 3049323471, 3921009573, 961987163,
   1508970993, 2453635748, 2870763221, 3624381080, 310598401,
   607225278, 1426881987, 1925078388, 2162078206, 2614888103,
   3248222580, 3835390401, 4022224774, 264347078, 604807628,
   770255983, 1249150122, 1555081692, 1996064986, 2554220882,
   2821834349, 2952996808, 3210313671, 3336571891, 3584528711,
   113926993, 338241895, 666307205, 773529912, 1294757372,
   1396182291, 1695183700, 1986661051, 2177026350, 2456956037,
   2730485921, 2820302411, 3259730800, 3345764771, 3516065817,
   3600352804, 4094571909, 275423344, 430227734, 506948616,
   659060556, 883997877, 958139571, 1322822218, 1537002063,
   1747873779, 1955562222, 2024104815, 2227730452, 2361852424,
   2428436474, 2756734187, 3204031479, 3329325298]

/-- The initial hash state: eight words, as decimal `Nat` literals (the
fractional parts of the square roots of the first 8 primes). -/
def shaH0 : List Nat :=
  [1779033703, 3144134277, 1013904242, 2773480762,
   1359893119, 2600822924, 528734635, 1541459225]

/-- Big-endian 8-byte encoding of the message length in bits. -/
def lenBytes64 (bitlen : Nat) : List Nat :=
  [(bitlen >>> 56) % 256, (bitlen >>> 48) % 256, (bitlen >>> 40) % 256,
   (bitlen >>> 32) % 256, (bitlen >>> 24) % 256, (bitlen >>> 16) % 256,
   (bitlen >>> 8) % 256, bitlen % 256]

/-- SHA-256 padding: `0x80`, zeros to 56 mod 64, then the 64-bit bit length. -/
def shaPad (msg : List Nat) : List Nat :=
  let len := msg.length
  let zeros := (120 - ((len + 1) % 64)) % 64
  msg ++ 128 :: List.replicate zeros 0 ++ lenBytes64 (len * 8)

/-- Split a byte list into 64-byte chunks (fuel-based so it reduces). -/
def chunksAux : Nat → List Nat → List (List Nat)
  | 0, _ => []
  | _, [] => []
  | fuel + 1, l => l.take 64 :: chunksAux fuel (l.drop 64)

/-- The 64-byte chunks of a padded message. -/
def chunks64 (l : List Nat) : List (List Nat) := chunksAux l.length l

/-- Group bytes four at a time into big-endian 32-bit words. -/
def wordsOf : List Nat → List Nat
  | b0 :: b1 :: b2 :: b3 :: rest =>
    (b0 * 16777216 + b1 * 65536 + b2 * 256 + b3) :: wordsOf rest
  | _ => []

/-- One step of the message-schedule extension: append word `w[n]` computed
from `w[n-2]`, `w[n-7]`, `w[n-15]`, `w[n-16]`. -/
def schedStep (acc : List Nat) : List Nat :=
  let n := acc.length
  acc ++ [w32 (ssig1 (acc.getD (n - 2) 0) + acc.getD (n - 7) 0 +
               ssig0 (acc.getD (n - 15) 0) + acc.getD (n - 16) 0)]

/-- Extend 16 message words to the 64-word schedule. -/
def sched (ws : List Nat) : List Nat :=
  (List.range 48).foldl (fun acc _ => schedStep acc) ws

/-- The eight 32-bit working variables of the compression function. -/
structure St8 where
  a : Nat
  b : Nat
  c : Nat
  d : Nat
  e : Nat
  f : Nat
  g : Nat
  h : Nat

/-- One SHA-256 compression round, consuming one `(k, w)` pair. -/
def compRound (st : St8) (kw : Nat × Nat) : St8 :=
  let t1 := w32 (st.h + bsig1 st.e + shaCh st.e st.f st.g + kw.1 + kw.2)
  let t2 := w32 (bsig0 st.a + shaMaj st.a st.b st.c)
  ⟨w32 (t1 + t2), st.a, st.b, st.c, w32 (st.d + t1), st.e, st.f, st.g⟩

/-- Process one 64-byte block, updating the eight-word hash state. -/
def processBlock (hs : List Nat) (block : List Nat) : List Nat :=
  let ws := sched (wordsOf block)
  let st0 : St8 := ⟨hs.getD 0 0, hs.getD 1 0, hs.getD 2 0, hs.getD 3 0,
                    hs.getD 4 0, hs.getD 5 0, hs.getD 6 0, hs.getD 7 0⟩
  let st := (shaK.zip ws).foldl compRound st0
  [w32 (hs.getD 0 0 + st.a), w32 (hs.getD 1 0 + st.b),
   w32 (hs.getD 2 0 + st.c), w32 (hs.getD 3 0 + st.d),
   w32 (hs.getD 4 0 + st.e), w32 (hs.getD 5 0 + st.f),
   w32 (hs.getD 6 0 + st.g), w32 (hs.getD 7 0 + st.h)]

/-- Serialize one 32-bit word to four big-endian bytes. -/
def bytesOfWord (w : Nat) : List Nat :=
  [(w >>> 24) % 256, (w >>> 16) % 256, (w >>> 8) % 256, w % 256]

/-- SHA-256 of a byte list: 32 digest bytes. -/
def sha256 (msg : List Nat) : List Nat :=
  ((chunks64 (shaPad msg)).foldl processBlock shaH0).flatMap bytesOfWord

/-- HMAC-SHA256 (`hmac.new(key, msg, hashlib.sha256).digest()`):
block size 64, key hashed when longer than a block. -/
def hmacSha256 (key msg : List Nat) : List Nat :=
  let k0 := if 64 < key.length then sha256 key else key
  let kp := k0 ++ List.replicate (64 - k0.length) 0
  let ipad := kp.map (fun b => b ^^^ 54)
  let opad := kp.map (fun b => b ^^^ 92)
  sha256 (opad ++ sha256 (ipad ++ msg))

/-! ## Lowercase hex digest (`.hexdigest()`) -/

/-- A hex digit character, lowercase, for values below 16. -/
def hexChar : Nat → Char
  | 0 => '0' | 1 => '1' | 2 => '2' | 3 => '3' | 4 => '4'
  | 5 => '5' | 6 => '6' | 7 => '7' | 8 => '8' | 9 => '9'
  | 10 => 'a' | 11 => 'b' | 12 => 'c' | 13 => 'd' | 14 => 'e' | 15 => 'f'
  | _ => '?'

/-- Python `.hexdigest()`: each byte as two lowercase hex characters. -/
def hexdigest (bs : List Nat) : List Char :=
  bs.flatMap (fun b => [hexChar (b / 16), hexChar (b % 16)])

/-! ## Python string splitting: `token.split("|")` -/

/-- Python `s.split("|")`: split on every occurrence of the delimiter;
an empty string yields `[""]`. -/
def splitPipe : List Char → List (List Char)
  | [] => [[]]
  | c :: cs =>
    if c = '|' then [] :: splitPipe cs
    else
      match splitPipe cs with
      | [] => [[c]]
      | f :: rest => (c :: f) :: rest

/-! ## Python `int(...)` on strings

Python `int` strips surrounding whitespace, accepts one optional sign, and
then decimal digits with single underscores allowed between digits;
anything else raises `ValueError` (modelled as `none`).  Python also
accepts non-ASCII Unicode decimal digits and Unicode whitespace; the
ASCII fragment modelled here covers every string these claims rely on. -/

/-- ASCII decimal digit test. -/
def isAsciiDigit (c : Char) : Bool := 48 ≤ c.toNat && c.toNat ≤ 57

/-- Value of an ASCII digit character, `none` otherwise. -/
def digitVal? (c : Char) : Option Nat :=
  if isAsciiDigit c then some (c.toNat - 48) else none

/-- ASCII whitespace stripped by Python `int` (`str.strip()` set). -/
def isPySpace (c : Char) : Bool :=
  c = ' ' || c = Char.ofNat 9 || c = Char.ofNat 10 || c = Char.ofNat 13 ||
  c = Char.ofNat 11 || c = Char.ofNat 12

/-- Strip leading and trailing whitespace. -/
def stripWs (l : List Char) : List Char :=
  ((l.dropWhile isPySpace).reverse.dropWhile isPySpace).reverse

/-- Digits after the first: a single underscore may sit between digits. -/
def digitsRest : List Char → Nat → Option Nat
  | [], acc => some acc
  | c :: cs, acc =>
    if c = '_' then
      match cs with
      | [] => none
      | c2 :: cs2 =>
        match digitVal? c2 with
        | some d => digitsRest cs2 (acc * 10 + d)
        | none => none
    else
      match digitVal? c with
      | some d => digitsRest cs (acc * 10 + d)
      | none => none

/-- The digit part of a Python integer literal: at least one digit,
underscores only between digits. -/
def parseUDigits : List Char → Option Nat
  | [] => none
  | c :: cs =>
    match digitVal? c with
    | some d => digitsRest cs d
    | none => none

/-- Python `int(s)` on the `List Char` model of `str`. -/
def pyInt (l : List Char) : Option Int :=
  match stripWs l with
  | [] => none
  | c :: cs =>
    if c = '+' then (parseUDigits cs).map Int.ofNat
    else if c = '-' then (parseUDigits cs).map (fun n => -(Int.ofNat n))
    else (parseUDigits (c :: cs)).map Int.ofNat

/-! ## Decimal rendering of integers (Python `f"{doc_id}"` on an `int`) -/

/-- A decimal digit character for values below 10. -/
def digitChar : Nat → Char
  | 0 => '0' | 1 => '1' | 2 => '2' | 3 => '3' | 4 => '4'
  | 5 => '5' | 6 => '6' | 7 => '7' | 8 => '8' | 9 => '9'
  | _ => '?'

/-- Fuel-based most-significant-first decimal rendering. -/
def natToDecAux : Nat → Nat → List Char → List Char
  | 0, _, acc => acc
  | fuel + 1, n, acc =>
    if n < 10 then digitChar n :: acc
    else natToDecAux fuel (n / 10) (digitChar (n % 10) :: acc)

/-- Decimal rendering of a natural number, as Python renders a
non-negative `int` in an f-string. -/
def natToDec (n : Nat) : List Char := natToDecAux (n + 1) n []

/-! ## Configuration (`src/Backend/config.py`, the fields this core reads) -/

/-- The slice of `Settings` consumed by the capability-token codec. -/
structure Settings where
  download_secret : List Char
  download_token_ttl_seconds : Nat

/-! ## Selector derivation and the token codec (`src/Backend/main.py`) -/

/-- `create_selector` (main.py:86-92): deterministic keyed selector,
`hmac.new(server_selector_secret.encode(), id_number.encode(),
hashlib.sha256).hexdigest()`. -/
def create_selector (server_selector_secret : List Char)
    (id_number : List Char) : List Char :=
  hexdigest (hmacSha256 (strEncode server_selector_secret)
    (strEncode id_number))

/-- The repeated signing expression of main.py:303-307 and main.py:323-327:
`hmac.new(settings.download_secret.encode(), payload.encode(),
hashlib.sha256).hexdigest()`. -/
def signPayload (st : Settings) (payload : List Char) : List Char :=
  hexdigest (hmacSha256 (strEncode st.download_secret) (strEncode payload))

/-- `hmac.compare_digest` on two ASCII strings decides exactly string
equality (its constant-time execution is a timing property with no
functional content in this model). -/
def compare_digest (a b : List Char) : Bool := a == b

/-- `make_download_token` (main.py:296-308): payload
`f"{doc_id}|{owner_id}|{expiry_ts}"` with
`expiry_ts = int(time.time()) + settings.download_token_ttl_seconds`,
returned as `f"{payload}|{signature}"`.  Document and owner ids are the
non-negative database ids. -/
def make_download_token (st : Settings) (now : Nat)
    (doc_id owner_id : Nat) : List Char :=
  let expiry_ts := now + st.download_token_ttl_seconds
  let payload :=
    natToDec doc_id ++ '|' :: natToDec owner_id ++ '|' :: natToDec expiry_ts
  let signature := signPayload st payload
  payload ++ '|' :: signature

/-- The pair returned by a successful `verify_download_token`:
`{"doc_id": int(doc_id), "owner_id": int(owner_id)}`. -/
structure TokenData where
  doc_id : Int
  owner_id : Int
deriving DecidableEq

/-- `verify_download_token` (main.py:310-337): split on `"|"`, demand four
fields, recompute the signature over the first three, compare with
`hmac.compare_digest`, reject stale expiries, parse the ids; every
exception inside the `try` (in particular every `int(...)` parse failure)
is caught and becomes `None`. -/
def verify_download_token (st : Settings) (now : Nat)
    (token : List Char) : Option TokenData :=
  let parts := splitPipe token
  if parts.length ≠ 4 then none
  else
    match parts with
    | [doc_id, owner_id, expiry_ts, signature] =>
      let payload := doc_id ++ '|' :: owner_id ++ '|' :: expiry_ts
      let expected_signature := signPayload st payload
      if ¬ compare_digest expected_signature signature then none
      else
        match pyInt expiry_ts with
        | none => none
        | some e =>
          if (now : Int) > e then none
          else
            match pyInt doc_id, pyInt owner_id with
            | some d, some o => some ⟨d, o⟩
            | _, _ => none
    | _ => none

/-! ## The download endpoint (`src/Backend/main.py:361-378`)

Only the authorization logic is in scope: the storage fetch and the
streaming response that follow a successful lookup are I/O glue. -/

/-- A row of the `documents` table, the fields the endpoints read. -/
structure Document where
  id : Int
  owner_id : Int
  filename : List Char
  filepath : List Char
deriving DecidableEq

/-- `raise HTTPException(status_code=..., detail=...)`. -/
structure HTTPError where
  status_code : Nat
  detail : List Char
deriving DecidableEq

/-- `download_document` (main.py:361-378): verify the capability token,
then fetch the document whose id AND owner id both match the token
(`.eq("id", data["doc_id"]).eq("owner_id", data["owner_id"]).limit(1)`);
403 on an invalid token, 404 when no such row exists. -/
def download_document (st : Settings) (docs : List Document) (now : Nat)
    (token : List Char) : Except HTTPError Document :=
  match verify_download_token st now token with
  | none => .error ⟨403, "Invalid or expired token".data⟩
  | some data =>
    match docs.find? (fun doc =>
        doc.id == data.doc_id && doc.owner_id == data.owner_id) with
    | none => .error ⟨404, "Document not found".data⟩
    | some doc => .ok doc

/-! ## Registration and login (`src/Backend/main.py:136-211`)

The Argon2 password hash (`pwd_context.hash` / `pwd_context.verify` from
passlib) is an external primitive with internal salting, modelled as
function parameters `hash_fn` and `vp`.  The user store is the list of
persisted rows; the JWT session token issued on success is out of scope,
so success carries the `sub` value (`id_selector`) the token is built
from. -/

/-- A row of the `users` table: exactly the fields of `new_user_data`
(main.py:155-160). -/
structure UserRecord where
  name : List Char
  id_selector : List Char
  id_hash : List Char
  created_at : List Char
deriving DecidableEq

/-- The record persisted by `register` (main.py:153-160): name, derived
selector, salted hash of the identifier, creation time — nothing else. -/
def register_record (hash_fn : List Char → List Char)
    (server_selector_secret : List Char)
    (name id_number now_iso : List Char) : UserRecord :=
  { name := name,
    id_selector := create_selector server_selector_secret id_number,
    id_hash := hash_fn id_number,
    created_at := now_iso }

/-- The body of `register` (main.py:137-183): derive the selector, fail
with 400 if a row with it exists, else persist the new record and issue a
session token for the selector.  Returns the endpoint result together
with the store after the call. -/
def register_body (hash_fn : List Char → List Char)
    (server_selector_secret : List Char) (store : List UserRecord)
    (name id_number now_iso : List Char) :
    Except HTTPError (List Char) × List UserRecord :=
  let id_selector := create_selector server_selector_secret id_number
  match store.find? (fun u => u.id_selector == id_selector) with
  | some _ => (.error ⟨400, "User already registered".data⟩, store)
  | none =>
    let new_user :=
      register_record hash_fn server_selector_secret name id_number now_iso
    (.ok new_user.id_selector, store ++ [new_user])

/-- The identifier validation declared on `RegisterIn`
(schemas.py:4-6): `min_length=13, max_length=13, pattern=r"^\d{13}$"`.
The digit class of the compiled pattern is the parameter `dig` (see
`ndDigit` for the concrete Unicode-decimal-digit reading). -/
def validRegisterId (dig : Char → Bool) (id_number : List Char) : Bool :=
  id_number.length == 13 && id_number.all dig

/-- The `/api/register` endpoint: the framework validates `RegisterIn`
before the function body runs, answering 422 on a validation failure, so
an invalid identifier never reaches `register`. -/
def register_endpoint (dig : Char → Bool)
    (hash_fn : List Char → List Char) (server_selector_secret : List Char)
    (store : List UserRecord) (name id_number now_iso : List Char) :
    Except HTTPError (List Char) × List UserRecord :=
  if validRegisterId dig id_number then
    register_body hash_fn server_selector_secret store name id_number now_iso
  else
    (.error ⟨422, "String should match pattern".data⟩, store)

/-- `login` (main.py:185-211): derive the selector from the submitted id,
fetch the first row with that selector (`limit(1)`, `data[0] if data else
None`), and answer the one fixed 401 both when no row exists and when
`verify_password` rejects; on success issue a session token for the
stored selector. -/
def login (vp : List Char → List Char → Bool)
    (server_selector_secret : List Char) (store : List UserRecord)
    (id_number : List Char) : Except HTTPError (List Char) :=
  let id_selector := create_selector server_selector_secret id_number
  match store.find? (fun u => u.id_selector == id_selector) with
  | none => .error ⟨401, "Incorrect ID number".data⟩
  | some user_data =>
    if ¬ vp id_number user_data.id_hash then
      .error ⟨401, "Incorrect ID number".data⟩
    else .ok user_data.id_selector

/-! ## Adversarial token construction (for the claims about what
validation accepts) -/

/-- A token whose signature is honestly computed over arbitrary raw field
strings — what anyone holding the download secret could emit for a
non-canonical payload. -/
def forge_token (st : Settings) (a b c : List Char) : List Char :=
  a ++ '|' :: b ++ '|' :: c ++ '|' :: signPayload st (a ++ '|' :: b ++ '|' :: c)

/-- The Unicode decimal digits (category `Nd`) recognised by the `\d`
class of the compiled `^\d{13}$` pattern; the table lists the ranges this
development evaluates the pattern on (ASCII, Arabic-Indic, Extended
Arabic-Indic, Devanagari, fullwidth). -/
def ndDigit (c : Char) : Bool :=
  (48 ≤ c.toNat && c.toNat ≤ 57) ||
  (1632 ≤ c.toNat && c.toNat ≤ 1641) ||
  (1776 ≤ c.toNat && c.toNat ≤ 1785) ||
  (2406 ≤ c.toNat && c.toNat ≤ 2415) ||
  (65296 ≤ c.toNat && c.toNat ≤ 65305)

/-! ## Derived token components and fixtures used by the statements -/

/-- The accumulator-folding value of a digit string. -/
def decVal (ds : List Char) (a : Nat) : Nat :=
  ds.foldl (fun x c => x * 10 + (c.toNat - 48)) a

/-- The sixteen lowercase hex characters a `.hexdigest()` is drawn from. -/
def hexAlphabet : List Char := (List.range 16).map hexChar

/-- The payload of a capability token issued at `now`: the three decimal
fields of `make_download_token`, `|`-joined. -/
def capPayload (st : Settings) (now doc_id owner_id : Nat) : List Char :=
  natToDec doc_id ++ '|' :: natToDec owner_id ++
    '|' :: natToDec (now + st.download_token_ttl_seconds)

/-- The signature field of a capability token issued at `now`. -/
def capSig (st : Settings) (now doc_id owner_id : Nat) : List Char :=
  signPayload st (capPayload st now doc_id owner_id)

/-- Modelled from the spec: the capability-token wire format
`"<doc_id>|<owner_id>|<expiry_unix_seconds>|<hex_signature>"` — four
`|`-joined fields, the ids and expiry as decimal integers, the last field
the lowercase hex keyed-hash digest over the first three fields joined by
`|` with no trailing delimiter. -/
def capability_wire_format (key : List Nat) (d o e : Nat)
    (token : List Char) : Prop :=
  ∃ sig : List Char,
    token =
      (natToDec d ++ '|' :: natToDec o) ++ '|' :: natToDec e ++ '|' :: sig ∧
    sig = hexdigest (hmacSha256 key
      (strEncode ((natToDec d ++ '|' :: natToDec o) ++ '|' :: natToDec e))) ∧
    ∀ ch ∈ sig, ch ∈ hexAlphabet

/-- Concrete settings used to instantiate theorems on closed inputs. -/
def stW : Settings := ⟨"k".data, 180⟩

/-- A concrete document store: document 1 owned by user 3. -/
def docW : List Document := [⟨1, 3, "a.pdf".data, "p".data⟩]

/-- A concrete stand-in for the external Argon2 hasher. -/
def hf0 : List Char → List Char := fun _ => "argon2digest".data

/-- A concrete stand-in for the external Argon2 verifier that rejects. -/
def vp0 : List Char → List Char → Bool := fun _ _ => false

/-- A concrete persisted user row whose selector is derived from the
identifier below. -/
def user1 : UserRecord :=
  ⟨"Test User".data, create_selector "s".data "9001015009087".data,
   "h".data, "t".data⟩

/-- Thirteen Arabic-Indic digits (U+0661), each a Unicode decimal digit
but not an ASCII digit. -/
def arab13 : List Char := List.replicate 13 (Char.ofNat 1633)

/-! ## Lemmas about `splitPipe` -/

theorem splitPipe_ne_nil (l : List Char) : splitPipe l ≠ [] := by
  induction l with
  | nil => simp [splitPipe]
  | cons c cs ih =>
    rw [splitPipe]
    split
    · simp
    · split <;> simp

theorem splitPipe_no_pipe (l : List Char) (h : '|' ∉ l) :
    splitPipe l = [l] := by
  induction l with
  | nil => rfl
  | cons c cs ih =>
    rw [splitPipe]
    have hc : ¬ c = '|' := fun e => h (e ▸ List.mem_cons_self c cs)
    rw [if_neg hc, ih (fun m => h (List.mem_cons_of_mem c m))]

theorem splitPipe_append (xs ys : List Char) (h : '|' ∉ xs) :
    splitPipe (xs ++ '|' :: ys) = xs :: splitPipe ys := by
  induction xs with
  | nil => simp [splitPipe]
  | cons c cs ih =>
    rw [List.cons_append, splitPipe]
    have hc : ¬ c = '|' := fun e => h (e ▸ List.mem_cons_self c cs)
    rw [if_neg hc, ih (fun m => h (List.mem_cons_of_mem c m))]

theorem two_le_splitPipe_length (l : List Char) (h : '|' ∈ l) :
    2 ≤ (splitPipe l).length := by
  induction l with
  | nil => cases h
  | cons c cs ih =>
    rw [splitPipe]
    by_cases hc : c = '|'
    · rw [if_pos hc]
      cases hsp : splitPipe cs with
      | nil => exact absurd hsp (splitPipe_ne_nil cs)
      | cons f rest => simp
    · rw [if_neg hc]
      have hm : '|' ∈ cs := by
        cases List.mem_cons.mp h with
        | inl e => exact absurd e.symm hc
        | inr m => exact m
      have h2 := ih hm
      cases hsp : splitPipe cs with
      | nil => exact absurd hsp (splitPipe_ne_nil cs)
      | cons f rest =>
        rw [hsp] at h2
        simpa using h2

/-! ## Lemmas about `List.set` -/

theorem mem_set_self (l : List Char) (i : Nat) (a : Char)
    (h : i < l.length) : a ∈ l.set i a := by
  induction l generalizing i with
  | nil => simp at h
  | cons c cs ih =>
    cases i with
    | zero => simp
    | succ j =>
      rw [List.set_cons_succ]
      exact List.mem_cons_of_mem c (ih j (by simpa using h))

theorem mem_of_mem_set (l : List Char) (i : Nat) (a x : Char)
    (h : x ∈ l.set i a) : x ∈ l ∨ x = a := by
  induction l generalizing i with
  | nil => simp at h
  | cons c cs ih =>
    cases i with
    | zero =>
      rw [List.set_cons_zero] at h
      cases List.mem_cons.mp h with
      | inl e => exact Or.inr e
      | inr m => exact Or.inl (List.mem_cons_of_mem c m)
    | succ j =>
      rw [List.set_cons_succ] at h
      cases List.mem_cons.mp h with
      | inl e => exact Or.inl (e ▸ List.mem_cons_self c cs)
      | inr m =>
        cases ih j m with
        | inl m2 => exact Or.inl (List.mem_cons_of_mem c m2)
        | inr e => exact Or.inr e

/-! ## Lemmas about decimal rendering and Python `int` parsing -/

theorem digitChar_isDigit : ∀ d, d < 10 → isAsciiDigit (digitChar d) = true := by
  decide

theorem digitChar_toNat : ∀ d, d < 10 → (digitChar d).toNat = 48 + d := by
  decide

theorem natToDecAux_spec (fuel : Nat) :
    ∀ n acc, n < fuel →
    ∃ ds, natToDecAux fuel n acc = ds ++ acc ∧ ds ≠ [] ∧
      (∀ c ∈ ds, isAsciiDigit c = true) ∧
      ∀ a, decVal ds a = a * 10 ^ ds.length + n := by
  induction fuel with
  | zero => intro n acc h; omega
  | succ fuel ih =>
    intro n acc h
    rw [natToDecAux]
    by_cases h10 : n < 10
    · rw [if_pos h10]
      refine ⟨[digitChar n], rfl, by simp, ?_, ?_⟩
      · intro c m
        rw [List.mem_singleton] at m
        exact m ▸ digitChar_isDigit n h10
      · intro a
        show a * 10 + ((digitChar n).toNat - 48) = a * 10 ^ 1 + n
        rw [digitChar_toNat n h10, pow_one]
        omega
    · rw [if_neg h10]
      have hlt : n / 10 < fuel := by
        have := Nat.div_lt_self (by omega : 0 < n) (by omega : 1 < 10)
        omega
      obtain ⟨ds, heq, hne, hdig, hval⟩ := ih (n / 10) (digitChar (n % 10) :: acc) hlt
      refine ⟨ds ++ [digitChar (n % 10)], by simpa using heq, by simp, ?_, ?_⟩
      · intro c m
        rcases List.mem_append.mp m with m1 | m2
        · exact hdig c m1
        · rw [List.mem_singleton] at m2
          exact m2 ▸ digitChar_isDigit _ (Nat.mod_lt n (by omega))
      · intro a
        have : decVal (ds ++ [digitChar (n % 10)]) a =
            decVal ds a * 10 + (n % 10) := by
          simp [decVal, List.foldl_append,
            digitChar_toNat (n % 10) (Nat.mod_lt n (by omega))]
        rw [this, hval a]
        simp [List.length_append, pow_succ]
        ring_nf
        omega

theorem natToDec_spec (n : Nat) :
    natToDec n ≠ [] ∧ (∀ c ∈ natToDec n, isAsciiDigit c = true) ∧
      decVal (natToDec n) 0 = n := by
  obtain ⟨ds, heq, hne, hdig, hval⟩ :=
    natToDecAux_spec (n + 1) n [] (Nat.lt_succ_self n)
  rw [natToDec, heq, List.append_nil]
  refine ⟨hne, hdig, ?_⟩
  rw [hval 0]
  simp

theorem natToDec_digits (n : Nat) : ∀ c ∈ natToDec n, isAsciiDigit c = true :=
  (natToDec_spec n).2.1

theorem natToDec_no_pipe (n : Nat) : '|' ∉ natToDec n := by
  intro h
  have := natToDec_digits n '|' h
  exact absurd this (by decide)

theorem digitsRest_digits (ds : List Char) :
    ∀ acc, (∀ c ∈ ds, isAsciiDigit c = true) →
    digitsRest ds acc = some (decVal ds acc) := by
  induction ds with
  | nil => intro acc _; rfl
  | cons c cs ih =>
    intro acc h
    have hc : isAsciiDigit c = true := h c (List.mem_cons_self c cs)
    have hcu : ¬ c = '_' := by
      intro e
      rw [e] at hc
      exact absurd hc (by decide)
    have step : digitsRest (c :: cs) acc =
        digitsRest cs (acc * 10 + (c.toNat - 48)) := by
      rw [digitsRest.eq_def]
      simp only [if_neg hcu]
      rw [digitVal?, if_pos hc]
    rw [step,
      ih (acc * 10 + (c.toNat - 48)) (fun x m => h x (List.mem_cons_of_mem c m))]
    rfl

theorem parseUDigits_digits (ds : List Char) (hne : ds ≠ [])
    (h : ∀ c ∈ ds, isAsciiDigit c = true) :
    parseUDigits ds = some (decVal ds 0) := by
  cases ds with
  | nil => exact absurd rfl hne
  | cons c cs =>
    have hc : isAsciiDigit c = true := h c (List.mem_cons_self c cs)
    have step : parseUDigits (c :: cs) = digitsRest cs (c.toNat - 48) := by
      simp only [parseUDigits]
      rw [digitVal?, if_pos hc]
    rw [step,
      digitsRest_digits cs (c.toNat - 48) (fun x m => h x (List.mem_cons_of_mem c m))]
    simp [decVal]

theorem digit_not_pyspace (c : Char) (h : isAsciiDigit c = true) :
    isPySpace c = false := by
  by_contra hb
  simp only [Bool.not_eq_false, isPySpace] at hb
  simp only [Bool.or_eq_true, decide_eq_true_eq] at hb
  rcases hb with ((((e | e) | e) | e) | e) | e <;>
    (rw [e] at h; exact absurd h (by decide))

theorem dropWhile_eq_self_of (p : Char → Bool) (l : List Char)
    (h : ∀ c ∈ l, p c = false) : l.dropWhile p = l := by
  cases l with
  | nil => rfl
  | cons c cs =>
    rw [List.dropWhile_cons, h c (List.mem_cons_self c cs)]
    simp

theorem stripWs_of_digits (l : List Char)
    (h : ∀ c ∈ l, isAsciiDigit c = true) : stripWs l = l := by
  rw [stripWs, dropWhile_eq_self_of _ _ (fun c m => digit_not_pyspace c (h c m)),
    dropWhile_eq_self_of _ _
      (fun c m => digit_not_pyspace c (h c (List.mem_reverse.mp m))),
    List.reverse_reverse]

theorem pyInt_natToDec (n : Nat) : pyInt (natToDec n) = some (n : Int) := by
  obtain ⟨hne, hdig, hval⟩ := natToDec_spec n
  cases hd : natToDec n with
  | nil => exact absurd hd hne
  | cons c cs =>
    rw [hd] at hdig hval
    have hc : isAsciiDigit c = true := hdig c (List.mem_cons_self c cs)
    have hplus : ¬ c = '+' := by
      intro e; rw [e] at hc; exact absurd hc (by decide)
    have hminus : ¬ c = '-' := by
      intro e; rw [e] at hc; exact absurd hc (by decide)
    rw [pyInt, stripWs_of_digits _ hdig]
    simp only [if_neg hplus, if_neg hminus]
    rw [parseUDigits_digits (c :: cs) (by simp) hdig, hval]
    rfl

/-! ## Lemmas about the digest alphabet and digest length -/

theorem hexChar_mem : ∀ d, d < 16 → hexChar d ∈ hexAlphabet := by decide

theorem sha256_lt (msg : List Nat) : ∀ b ∈ sha256 msg, b < 256 := by
  intro b hb
  rw [sha256] at hb
  rcases List.mem_flatMap.mp hb with ⟨w, _, hw⟩
  rw [bytesOfWord] at hw
  simp only [List.mem_cons, List.not_mem_nil, or_false] at hw
  rcases hw with e | e | e | e <;>
    (rw [e]; exact Nat.mod_lt _ (by omega))

theorem processBlock_length (hs block : List Nat) :
    (processBlock hs block).length = 8 := rfl

theorem foldl_processBlock_length (bs : List (List Nat)) :
    ∀ hs : List Nat, hs.length = 8 →
    (bs.foldl processBlock hs).length = 8 := by
  induction bs with
  | nil => intro hs h; exact h
  | cons b bs ih =>
    intro hs _
    rw [List.foldl_cons]
    exact ih _ (processBlock_length hs b)

theorem flatMap_bytesOfWord_length (l : List Nat) :
    (l.flatMap bytesOfWord).length = 4 * l.length := by
  induction l with
  | nil => rfl
  | cons w ws ih =>
    rw [List.flatMap_cons, List.length_append, ih]
    simp [bytesOfWord]
    omega

theorem sha256_length (msg : List Nat) : (sha256 msg).length = 32 := by
  rw [sha256, flatMap_bytesOfWord_length,
    foldl_processBlock_length _ shaH0 (by decide)]

theorem hmacSha256_lt (key msg : List Nat) :
    ∀ b ∈ hmacSha256 key msg, b < 256 :=
  sha256_lt _

theorem hmacSha256_length (key msg : List Nat) :
    (hmacSha256 key msg).length = 32 :=
  sha256_length _

theorem hexdigest_mem (bs : List Nat) (h : ∀ b ∈ bs, b < 256) :
    ∀ c ∈ hexdigest bs, c ∈ hexAlphabet := by
  intro c hc
  rw [hexdigest] at hc
  rcases List.mem_flatMap.mp hc with ⟨b, hb, hcb⟩
  have hblt := h b hb
  simp only [List.mem_cons, List.not_mem_nil, or_false] at hcb
  rcases hcb with e | e
  · exact e ▸ hexChar_mem _ (Nat.div_lt_of_lt_mul (by omega))
  · exact e ▸ hexChar_mem _ (Nat.mod_lt _ (by omega))

theorem hexdigest_length (bs : List Nat) :
    (hexdigest bs).length = 2 * bs.length := by
  induction bs with
  | nil => rfl
  | cons b rest ih =>
    rw [hexdigest, List.flatMap_cons, List.length_append]
    rw [hexdigest] at ih
    rw [ih]
    simp
    omega

theorem signPayload_mem (st : Settings) (p : List Char) :
    ∀ c ∈ signPayload st p, c ∈ hexAlphabet :=
  hexdigest_mem _ (hmacSha256_lt _ _)

theorem signPayload_no_pipe (st : Settings) (p : List Char) :
    '|' ∉ signPayload st p := by
  intro h
  have := signPayload_mem st p '|' h
  exact absurd this (by decide)

theorem signPayload_length (st : Settings) (p : List Char) :
    (signPayload st p).length = 64 := by
  rw [signPayload, hexdigest_length, hmacSha256_length]

/-! ## Evaluation of `verify_download_token` on honestly signed tokens -/

theorem splitPipe_forge (st : Settings) (a b c : List Char)
    (ha : '|' ∉ a) (hb : '|' ∉ b) (hc : '|' ∉ c) :
    splitPipe (forge_token st a b c) =
      [a, b, c, signPayload st ((a ++ '|' :: b) ++ '|' :: c)] := by
  have hshape : forge_token st a b c =
      a ++ '|' :: (b ++ '|' :: (c ++ '|' ::
        signPayload st ((a ++ '|' :: b) ++ '|' :: c))) := by
    rw [forge_token]
    simp [List.append_assoc]
  rw [hshape, splitPipe_append _ _ ha, splitPipe_append _ _ hb,
    splitPipe_append _ _ hc, splitPipe_no_pipe _ (signPayload_no_pipe st _)]

theorem verify_forge (st : Settings) (now : Nat) (a b c : List Char)
    (ha : '|' ∉ a) (hb : '|' ∉ b) (hc : '|' ∉ c) :
    verify_download_token st now (forge_token st a b c) =
      match pyInt c with
      | none => none
      | some e =>
        if (now : Int) > e then none
        else
          match pyInt a, pyInt b with
          | some d, some o => some ⟨d, o⟩
          | _, _ => none := by
  rw [verify_download_token]
  rw [splitPipe_forge st a b c ha hb hc]
  simp [compare_digest]

theorem verify_forge_some (st : Settings) (now : Nat) (a b c : List Char)
    (e : Int) (ha : '|' ∉ a) (hb : '|' ∉ b) (hc : '|' ∉ c)
    (hpc : pyInt c = some e) :
    verify_download_token st now (forge_token st a b c) =
      if (now : Int) > e then none
      else
        match pyInt a, pyInt b with
        | some d, some o => some ⟨d, o⟩
        | _, _ => none := by
  rw [verify_forge st now a b c ha hb hc, hpc]

theorem make_eq_forge (st : Settings) (now doc_id owner_id : Nat) :
    make_download_token st now doc_id owner_id =
      forge_token st (natToDec doc_id) (natToDec owner_id)
        (natToDec (now + st.download_token_ttl_seconds)) := rfl

theorem verify_make_of_le (st : Settings) (now now2 doc_id owner_id : Nat)
    (h : now2 ≤ now + st.download_token_ttl_seconds) :
    verify_download_token st now2 (make_download_token st now doc_id owner_id) =
      some ⟨(doc_id : Int), (owner_id : Int)⟩ := by
  rw [make_eq_forge,
    verify_forge_some st now2 _ _ _ _ (natToDec_no_pipe _) (natToDec_no_pipe _)
      (natToDec_no_pipe _) (pyInt_natToDec _)]
  have hle : ¬ ((now2 : Int) > ((now + st.download_token_ttl_seconds : Nat) : Int)) := by
    push_cast
    omega
  rw [if_neg hle, pyInt_natToDec, pyInt_natToDec]

theorem verify_make_of_gt (st : Settings) (now now2 doc_id owner_id : Nat)
    (h : now + st.download_token_ttl_seconds < now2) :
    verify_download_token st now2 (make_download_token st now doc_id owner_id) =
      none := by
  rw [make_eq_forge,
    verify_forge_some st now2 _ _ _ _ (natToDec_no_pipe _) (natToDec_no_pipe _)
      (natToDec_no_pipe _) (pyInt_natToDec _)]
  have hgt : (now2 : Int) > ((now + st.download_token_ttl_seconds : Nat) : Int) := by
    push_cast
    omega
  rw [if_pos hgt]

theorem verify_eval4 (st : Settings) (now : Nat) (token : List Char)
    (a b c s : List Char) (hsp : splitPipe token = [a, b, c, s]) :
    verify_download_token st now token =
      if ¬ compare_digest (signPayload st ((a ++ '|' :: b) ++ '|' :: c)) s
      then none
      else
        match pyInt c with
        | none => none
        | some e =>
          if (now : Int) > e then none
          else
            match pyInt a, pyInt b with
            | some d, some o => some ⟨d, o⟩
            | _, _ => none := by
  rw [verify_download_token, hsp]
  have h4 : ¬ (([a, b, c, s] : List (List Char)).length ≠ 4) := by simp
  rw [if_neg h4]

theorem make_eq_parts (st : Settings) (now doc_id owner_id : Nat) :
    make_download_token st now doc_id owner_id =
      capPayload st now doc_id owner_id ++ '|' :: capSig st now doc_id owner_id :=
  rfl

theorem capPayload_shape (st : Settings) (now doc_id owner_id : Nat)
    (tail : List Char) :
    capPayload st now doc_id owner_id ++ '|' :: tail =
      natToDec doc_id ++ '|' :: (natToDec owner_id ++ '|' ::
        (natToDec (now + st.download_token_ttl_seconds) ++ '|' :: tail)) := by
  rw [capPayload]
  simp [List.append_assoc]

theorem splitPipe_capPayload (st : Settings) (now doc_id owner_id : Nat)
    (tail : List Char) (htail : '|' ∉ tail) :
    splitPipe (capPayload st now doc_id owner_id ++ '|' :: tail) =
      [natToDec doc_id, natToDec owner_id,
       natToDec (now + st.download_token_ttl_seconds), tail] := by
  rw [capPayload_shape, splitPipe_append _ _ (natToDec_no_pipe _),
    splitPipe_append _ _ (natToDec_no_pipe _),
    splitPipe_append _ _ (natToDec_no_pipe _), splitPipe_no_pipe _ htail]

/-! ## The claims -/

/-- C1: for all non-negative integers `d`, `o` and positive `ttl`,
validating a capability token immediately after it is issued for
`(d, o, ttl)` succeeds and returns exactly the pair
`{doc_id = d, owner_id = o}`. -/
theorem C1_token_roundtrip (secret : List Char) (ttl : Nat)
    (httl : 0 < ttl) (now d o : Nat) :
    verify_download_token ⟨secret, ttl⟩ now
        (make_download_token ⟨secret, ttl⟩ now d o) =
      some ⟨(d : Int), (o : Int)⟩ :=
  verify_make_of_le ⟨secret, ttl⟩ now now d o (Nat.le_add_right now ttl)

/-- Witness for C1 at `secret = "k"`, `ttl = 60`, `now = 1000`, `d = 3`,
`o = 5`. -/
theorem C1_token_roundtrip_witness :
    0 < 60 ∧
    verify_download_token ⟨"k".data, 60⟩ 1000
        (make_download_token ⟨"k".data, 60⟩ 1000 3 5) = some ⟨3, 5⟩ :=
  ⟨by decide, C1_token_roundtrip "k".data 60 (by decide) 1000 3 5⟩

/-- C3: capability-token expiry is strict at the boundary: a token issued
at `issue` with ttl `ttl` still validates when the clock reads exactly
`issue + ttl` and is invalid one second later; with `ttl = 1` this is
validity at `issue + 1` and invalidity at `issue + 2`. -/
theorem C3_expiry_boundary (secret : List Char) (ttl issue d o : Nat) :
    verify_download_token ⟨secret, ttl⟩ (issue + ttl)
        (make_download_token ⟨secret, ttl⟩ issue d o) =
      some ⟨(d : Int), (o : Int)⟩ ∧
    verify_download_token ⟨secret, ttl⟩ (issue + ttl + 1)
        (make_download_token ⟨secret, ttl⟩ issue d o) = none :=
  ⟨verify_make_of_le ⟨secret, ttl⟩ issue (issue + ttl) d o (Nat.le_refl _),
   verify_make_of_gt ⟨secret, ttl⟩ issue (issue + ttl + 1) d o
     (Nat.lt_succ_self _)⟩

/-- C6: every issued capability token is exactly
`"<doc_id>|<owner_id>|<expiry>|<hex_signature>"`: four `|`-joined fields,
the ids the decimal integers passed in, the expiry the decimal issuance
time plus the configured ttl, and the signature the lowercase hex
keyed-hash digest over the first three fields joined by `|` with no
trailing delimiter. -/
theorem C6_wire_format (st : Settings) (now d o : Nat) :
    capability_wire_format (strEncode st.download_secret) d o
      (now + st.download_token_ttl_seconds)
      (make_download_token st now d o) :=
  ⟨signPayload st
      ((natToDec d ++ '|' :: natToDec o) ++
        '|' :: natToDec (now + st.download_token_ttl_seconds)),
   rfl, rfl, signPayload_mem st _⟩

/-- C7: the user record persisted at registration consists only of
`{name, selector, credential hash, creation time}`; the raw identifier
reaches the record only through the keyed selector digest and the salted
one-way hash, so identifiers with equal digests produce identical
records. -/
theorem C7_persisted_record (hash_fn : List Char → List Char)
    (secret name id1 id2 now_iso : List Char)
    (hsel : create_selector secret id1 = create_selector secret id2)
    (hhash : hash_fn id1 = hash_fn id2) :
    register_record hash_fn secret name id1 now_iso =
      ⟨name, create_selector secret id1, hash_fn id1, now_iso⟩ ∧
    register_record hash_fn secret name id1 now_iso =
      register_record hash_fn secret name id2 now_iso := by
  constructor
  · rfl
  · rw [register_record, register_record, hsel, hhash]

/-- Witness for C7 at a concrete identifier (both digest hypotheses hold
reflexively). -/
theorem C7_persisted_record_witness :
    create_selector "s".data "9001015009087".data =
      create_selector "s".data "9001015009087".data ∧
    hf0 "9001015009087".data = hf0 "9001015009087".data ∧
    register_record hf0 "s".data "Test User".data "9001015009087".data
        "t".data =
      ⟨"Test User".data, create_selector "s".data "9001015009087".data,
       hf0 "9001015009087".data, "t".data⟩ :=
  ⟨rfl, rfl,
   (C7_persisted_record hf0 "s".data "Test User".data "9001015009087".data
     "9001015009087".data "t".data rfl rfl).1⟩

/-- C10: validation does not enforce the canonical decimal wire format:
any `|`-free field strings that Python `int` accepts — leading `+`,
surrounding whitespace, leading zeros, embedded underscores — validate
successfully when the signature was computed over that exact payload, so
distinct token strings can validate to the same pair. -/
theorem C10_noncanonical_accept (st : Settings) (now : Nat)
    (a b c : List Char) (d o e : Int)
    (ha : '|' ∉ a) (hb : '|' ∉ b) (hc : '|' ∉ c)
    (hpa : pyInt a = some d) (hpb : pyInt b = some o)
    (hpc : pyInt c = some e) (hnow : (now : Int) ≤ e) :
    verify_download_token st now (forge_token st a b c) = some ⟨d, o⟩ := by
  rw [verify_forge_some st now a b c e ha hb hc hpc,
    if_neg (by omega : ¬ (now : Int) > e), hpa, hpb]

/-- Witness for C10: the non-canonical token with fields `" +01"`, `"1_0"`,
`"0_5"` validates to the pair `(1, 10)`, the same pair as the canonical
token issued for `(1, 10)`, while the two token strings differ. -/
theorem C10_noncanonical_accept_witness :
    '|' ∉ " +01".data ∧ pyInt " +01".data = some 1 ∧
    pyInt "1_0".data = some 10 ∧ pyInt "0_5".data = some 5 ∧
    verify_download_token stW 3
        (forge_token stW " +01".data "1_0".data "0_5".data) =
      some ⟨1, 10⟩ ∧
    verify_download_token stW 3 (make_download_token stW 3 1 10) =
      some ⟨1, 10⟩ ∧
    forge_token stW " +01".data "1_0".data "0_5".data ≠
      make_download_token stW 3 1 10 := by
  refine ⟨by decide, by decide, by decide, by decide,
    C10_noncanonical_accept stW 3 " +01".data "1_0".data "0_5".data 1 10 5
      (by decide) (by decide) (by decide) (by decide) (by decide)
      (by decide) (by decide),
    verify_make_of_le stW 3 3 1 10 (by omega), ?_⟩
  intro hcontra
  have h1 : (forge_token stW " +01".data "1_0".data "0_5".data).head? =
      some ' ' := rfl
  have h2 : (make_download_token stW 3 1 10).head? = some '1' := rfl
  rw [hcontra, h2] at h1
  exact absurd h1 (by decide)

/-- C8: login returns one and the same generic invalid-credentials error
both when no record exists for the derived selector and when a record
exists but the supplied identifier fails hash verification, so the two
failure paths are indistinguishable by the returned error. -/
theorem C8_login_error_parity (vp : List Char → List Char → Bool)
    (secret : List Char) (store : List UserRecord) (id_number : List Char) :
    (store.find?
        (fun u => u.id_selector == create_selector secret id_number) =
          none →
      login vp secret store id_number =
        .error ⟨401, "Incorrect ID number".data⟩) ∧
    (∀ u, store.find?
        (fun u => u.id_selector == create_selector secret id_number) =
          some u →
      vp id_number u.id_hash = false →
      login vp secret store id_number =
        .error ⟨401, "Incorrect ID number".data⟩) := by
  constructor
  · intro h
    rw [login, h]
  · intro u hu hvp
    rw [login, hu]
    have hcond : ¬ (vp id_number u.id_hash = true) := by
      rw [hvp]
      decide
    show (if ¬ vp id_number u.id_hash = true then
        (.error ⟨401, "Incorrect ID number".data⟩ :
          Except HTTPError (List Char))
      else .ok u.id_selector) =
      .error ⟨401, "Incorrect ID number".data⟩
    rw [if_pos hcond]

set_option maxRecDepth 8192 in
/-- Witness for C8: with an empty store the lookup is absent; with a
store holding the matching row and a rejecting verifier the hash check
fails; both logins return the same 401 error. -/
theorem C8_login_error_parity_witness :
    ([] : List UserRecord).find?
        (fun u =>
          u.id_selector == create_selector "s".data "9001015009087".data) =
      none ∧
    login vp0 "s".data [] "9001015009087".data =
      .error ⟨401, "Incorrect ID number".data⟩ ∧
    [user1].find?
        (fun u =>
          u.id_selector == create_selector "s".data "9001015009087".data) =
      some user1 ∧
    vp0 "9001015009087".data user1.id_hash = false ∧
    login vp0 "s".data [user1] "9001015009087".data =
      .error ⟨401, "Incorrect ID number".data⟩ := by
  have h1 : ([] : List UserRecord).find?
      (fun u =>
        u.id_selector == create_selector "s".data "9001015009087".data) =
      none := rfl
  have h2 : [user1].find?
      (fun u =>
        u.id_selector == create_selector "s".data "9001015009087".data) =
      some user1 := by
    apply List.find?_cons_of_pos
    show (user1.id_selector == create_selector "s".data "9001015009087".data)
        = true
    exact beq_self_eq_true _
  exact ⟨h1,
    (C8_login_error_parity vp0 "s".data [] "9001015009087".data).1 h1,
    h2, rfl,
    (C8_login_error_parity vp0 "s".data [user1] "9001015009087".data).2
      user1 h2 rfl⟩

/-- C9 (amended): every registration request whose identifier does not
consist of exactly 13 characters of the compiled pattern's digit class is
rejected by the validation layer with a 422 error before the handler
body runs: the result is independent of the hasher and the selector
secret and the store is returned untouched. -/
theorem C9_register_validation_amended (dig : Char → Bool)
    (hash_fn : List Char → List Char) (secret : List Char)
    (store : List UserRecord) (name id_number now_iso : List Char)
    (hbad : validRegisterId dig id_number = false) :
    register_endpoint dig hash_fn secret store name id_number now_iso =
      (.error ⟨422, "String should match pattern".data⟩, store) := by
  rw [register_endpoint]
  have hcond : ¬ (validRegisterId dig id_number = true) := by
    rw [hbad]
    decide
  rw [if_neg hcond]

/-- Witness for C9 (amended): a 5-character identifier is rejected with
the 422 error and the store is unchanged. -/
theorem C9_register_validation_amended_witness :
    validRegisterId ndDigit "12345".data = false ∧
    register_endpoint ndDigit hf0 "s".data [] "Test User".data
        "12345".data "t".data =
      (.error ⟨422, "String should match pattern".data⟩, []) :=
  ⟨by decide,
   C9_register_validation_amended ndDigit hf0 "s".data [] "Test User".data
     "12345".data "t".data (by decide)⟩

/-- Counterexample to C9 as stated: thirteen Arabic-Indic digits are not
ASCII digits, yet the identifier passes the `\d{13}` validation (the
regex digit class covers all Unicode decimal digits), and registration
proceeds to touch the store instead of rejecting the request. -/
theorem C9_register_validation_counterexample :
    arab13.length = 13 ∧ arab13.all Char.isDigit = false ∧
    validRegisterId ndDigit arab13 = true ∧
    (register_endpoint ndDigit hf0 "s".data [] "Test User".data arab13
        "t".data).2 ≠ [] := by
  refine ⟨by decide, by decide, by decide, ?_⟩
  rw [register_endpoint]
  have hcond : validRegisterId ndDigit arab13 = true := by decide
  rw [if_pos hcond, register_body]
  have hfind : ([] : List UserRecord).find?
      (fun u => u.id_selector == create_selector "s".data arab13) = none :=
    rfl
  rw [hfind]
  simp

theorem set_ne_of_get_ne (l : List Char) (i : Nat) (a : Char)
    (h : i < l.length) (hne : a ≠ l.get ⟨i, h⟩) : l.set i a ≠ l := by
  induction l generalizing i with
  | nil => simp at h
  | cons c cs ih =>
    cases i with
    | zero =>
      rw [List.set_cons_zero]
      intro he
      exact hne (by injection he)
    | succ j =>
      rw [List.set_cons_succ]
      intro he
      have hj : j < cs.length := by simpa using h
      have : cs.set j a = cs := by injection he
      exact ih j hj hne this

/-- C2: for every capability token presented at the download endpoint,
the download succeeds only if the token's owner id equals the document's
stored owner at redemption time; a token whose signature verifies but
whose owner id does not match the stored owner of the document is
rejected. -/
theorem C2_download_owner_binding (st : Settings) (docs : List Document)
    (now : Nat) (token : List Char) (td : TokenData)
    (hv : verify_download_token st now token = some td) :
    (∀ doc, download_document st docs now token = .ok doc →
      doc ∈ docs ∧ doc.id = td.doc_id ∧ doc.owner_id = td.owner_id) ∧
    ((∀ doc ∈ docs, doc.id = td.doc_id → doc.owner_id ≠ td.owner_id) →
      download_document st docs now token =
        .error ⟨404, "Document not found".data⟩) := by
  constructor
  · intro doc hok
    rw [download_document, hv] at hok
    have hok2 : (match docs.find?
        (fun d2 => d2.id == td.doc_id && d2.owner_id == td.owner_id) with
      | none => (.error ⟨404, "Document not found".data⟩ :
          Except HTTPError Document)
      | some d2 => .ok d2) = .ok doc := hok
    cases hf : docs.find?
        (fun d2 => d2.id == td.doc_id && d2.owner_id == td.owner_id) with
    | none =>
      rw [hf] at hok2
      simp at hok2
    | some d2 =>
      rw [hf] at hok2
      have hd : d2 = doc := by simpa using hok2
      have hpred := List.find?_some hf
      have hmem := List.mem_of_find?_eq_some hf
      simp only [Bool.and_eq_true, beq_iff_eq] at hpred
      subst hd
      exact ⟨hmem, hpred.1, hpred.2⟩
  · intro hno
    rw [download_document, hv]
    show (match docs.find?
        (fun d2 => d2.id == td.doc_id && d2.owner_id == td.owner_id) with
      | none => (.error ⟨404, "Document not found".data⟩ :
          Except HTTPError Document)
      | some d2 => .ok d2) =
      .error ⟨404, "Document not found".data⟩
    cases hf : docs.find?
        (fun d2 => d2.id == td.doc_id && d2.owner_id == td.owner_id) with
    | none => rfl
    | some d2 =>
      have hpred := List.find?_some hf
      simp only [Bool.and_eq_true, beq_iff_eq] at hpred
      exact absurd hpred.2 (hno d2 (List.mem_of_find?_eq_some hf) hpred.1)

/-- Witness for C2: a validly signed token for document 1 with owner id 2
is rejected with 404 when the store records owner 3 for document 1. -/
theorem C2_download_owner_binding_witness :
    verify_download_token stW 100 (make_download_token stW 100 1 2) =
      some ⟨1, 2⟩ ∧
    download_document stW docW 100 (make_download_token stW 100 1 2) =
      .error ⟨404, "Document not found".data⟩ := by
  have hv : verify_download_token stW 100 (make_download_token stW 100 1 2) =
      some ⟨1, 2⟩ :=
    verify_make_of_le stW 100 100 1 2 (Nat.le_add_right 100 _)
  refine ⟨hv, (C2_download_owner_binding stW docW 100 _ ⟨1, 2⟩ hv).2 ?_⟩
  intro doc hmem hid
  rw [docW, List.mem_singleton] at hmem
  subst hmem
  decide

/-- C4: capability-token validation is total over arbitrary strings:
every input yields a result or the single undifferentiated invalid
outcome; a token with other than four `|`-delimited fields, or with a
non-numeric doc id, owner id or expiry field, is rejected as invalid. -/
theorem C4_validation_total (st : Settings) (now : Nat) (token : List Char) :
    (verify_download_token st now token = none ∨
      ∃ td, verify_download_token st now token = some td) ∧
    ((splitPipe token).length ≠ 4 →
      verify_download_token st now token = none) ∧
    (∀ a b c s, splitPipe token = [a, b, c, s] →
      pyInt a = none ∨ pyInt b = none ∨ pyInt c = none →
      verify_download_token st now token = none) := by
  refine ⟨?_, ?_, ?_⟩
  · cases verify_download_token st now token with
    | none => exact Or.inl rfl
    | some td => exact Or.inr ⟨td, rfl⟩
  · intro h
    rw [verify_download_token, if_pos h]
  · intro a b c s hsp hbad
    rw [verify_eval4 st now token a b c s hsp]
    by_cases hcd : compare_digest
        (signPayload st ((a ++ '|' :: b) ++ '|' :: c)) s = true
    · rw [if_neg (not_not_intro hcd)]
      rcases hbad with hba | hbb | hbc
      · cases hpc : pyInt c with
        | none => simp
        | some e =>
          cases hpb : pyInt b with
          | none => simp [hba, hpb]
          | some o2 => simp [hba, hpb]
      · cases hpc : pyInt c with
        | none => simp
        | some e =>
          cases hpa : pyInt a with
          | none => simp [hbb, hpa]
          | some d2 => simp [hbb, hpa]
      · rw [hbc]
    · rw [if_pos hcd]

/-- Witness for C4: a one-field token and a four-field token with a
non-numeric doc id are both rejected. -/
theorem C4_validation_total_witness :
    (splitPipe "abc".data).length ≠ 4 ∧
    verify_download_token stW 0 "abc".data = none ∧
    splitPipe "a|b|c|d".data = ["a".data, "b".data, "c".data, "d".data] ∧
    pyInt "a".data = none ∧
    verify_download_token stW 0 "a|b|c|d".data = none :=
  ⟨by decide, (C4_validation_total stW 0 "abc".data).2.1 (by decide),
   by decide, by decide,
   (C4_validation_total stW 0 "a|b|c|d".data).2.2 "a".data "b".data
     "c".data "d".data (by decide) (Or.inl (by decide))⟩

/-- C5: replacing any single character of the signature field of a
validly issued capability token with any different character yields a
token string that fails validation (at every redemption time). -/
theorem C5_tamper_sensitivity (st : Settings) (now issue d o : Nat)
    (i : Nat) (hi : i < (capSig st issue d o).length) (ch : Char)
    (hch : ch ≠ (capSig st issue d o).get ⟨i, hi⟩) :
    make_download_token st issue d o =
      capPayload st issue d o ++ '|' :: capSig st issue d o ∧
    verify_download_token st now
        (capPayload st issue d o ++ '|' :: (capSig st issue d o).set i ch) =
      none := by
  refine ⟨rfl, ?_⟩
  by_cases hpipe : ch = '|'
  · subst hpipe
    have hmem : '|' ∈ (capSig st issue d o).set i '|' :=
      mem_set_self _ i '|' hi
    have hsplit : splitPipe (capPayload st issue d o ++ '|' ::
        (capSig st issue d o).set i '|') =
        natToDec d :: (natToDec o ::
          (natToDec (issue + st.download_token_ttl_seconds) ::
            splitPipe ((capSig st issue d o).set i '|'))) := by
      rw [capPayload_shape, splitPipe_append _ _ (natToDec_no_pipe _),
        splitPipe_append _ _ (natToDec_no_pipe _),
        splitPipe_append _ _ (natToDec_no_pipe _)]
    have hlen := two_le_splitPipe_length _ hmem
    rw [verify_download_token, hsplit]
    have hne4 : (natToDec d :: (natToDec o ::
        (natToDec (issue + st.download_token_ttl_seconds) ::
          splitPipe ((capSig st issue d o).set i '|')))).length ≠ 4 := by
      simp only [List.length_cons]
      omega
    rw [if_pos hne4]
  · have hnp : '|' ∉ (capSig st issue d o).set i ch := by
      intro m
      rcases mem_of_mem_set _ _ _ _ m with m1 | m2
      · exact signPayload_no_pipe st _ m1
      · exact hpipe m2.symm
    have hsplit := splitPipe_capPayload st issue d o _ hnp
    rw [verify_eval4 st now _ _ _ _ _ hsplit]
    have hneq : (capSig st issue d o).set i ch ≠ capSig st issue d o :=
      set_ne_of_get_ne _ i ch hi hch
    have hcd : compare_digest
        (signPayload st ((natToDec d ++ '|' :: natToDec o)
          ++ '|' :: natToDec (issue + st.download_token_ttl_seconds)))
        ((capSig st issue d o).set i ch) = false :=
      beq_eq_false_iff_ne.mpr (fun he => hneq he.symm)
    rw [if_pos (by rw [hcd]; decide :
      ¬ compare_digest (signPayload st ((natToDec d ++ '|' :: natToDec o)
          ++ '|' :: natToDec (issue + st.download_token_ttl_seconds)))
        ((capSig st issue d o).set i ch) = true)]

/-- Witness for C5: replacing the first signature character of a concrete
token with `'z'` (never a lowercase hex digit) makes validation fail. -/
theorem C5_tamper_sensitivity_witness :
    make_download_token stW 0 1 2 =
      capPayload stW 0 1 2 ++ '|' :: capSig stW 0 1 2 ∧
    verify_download_token stW 0
        (capPayload stW 0 1 2 ++ '|' :: (capSig stW 0 1 2).set 0 'z') =
      none := by
  have hlen : (capSig stW 0 1 2).length = 64 :=
    signPayload_length stW (capPayload stW 0 1 2)
  have hi : 0 < (capSig stW 0 1 2).length := by omega
  have hmem : (capSig stW 0 1 2).get ⟨0, hi⟩ ∈ hexAlphabet :=
    signPayload_mem stW (capPayload stW 0 1 2) _
      (List.get_mem (capSig stW 0 1 2) 0 hi)
  have hch : 'z' ≠ (capSig stW 0 1 2).get ⟨0, hi⟩ := by
    intro he
    rw [← he] at hmem
    exact absurd hmem (by decide)
  exact C5_tamper_sensitivity stW 0 0 1 2 0 hi 'z' hch

end Backend
